import Mathlib

/-
Verification of the PO_Master_odoo pipeline scripts
(`PO_data_fetch.py` and `expns_master.py`).

The two scripts are near-identical sequential pipelines:
authenticate against an Odoo JSON-RPC endpoint, page through
`web_search_read`, flatten nested records into tabular rows, and rewrite a
Google-Sheets tab.  This file gives a shallow embedding of the pure parts:

  * `Value`        — the Python/JSON values that flow through the scripts;
  * `safe_str`     — the field normalizer (both files, lines 46-59);
  * `fetchPages`   — the pagination loop shared by `fetch_purchase_orders`
                     (PO_data_fetch.py lines 97-128) and
                     `fetch_expense_sheets` (expns_master.py lines 96-127),
                     with the HTTP transport abstracted as a function from
                     offset to the page of records the server returns;
  * `flatten_purchase_orders` / `flatten_expense_sheets` — the row
    flatteners (lines 131-155 resp. 130-150);
  * `paste_to_gsheet_po` / `paste_to_gsheet_exp` — the sheet publishers
    (lines 158-179 resp. 153-174), modelled as the sequence of mutation
    operations they issue against the destination worksheet, together with
    a small semantics `applyOps` of those operations on a sheet state.

Python-semantics notes that the embedding is careful about:
  * `bool` is a subclass of `int` in Python, so
    `isinstance(False, (int, float))` is `True`: `safe_str(False)` hits the
    numeric branch and returns `"False"`, making the later
    `if field in (False, None)` test unreachable for `False`.
  * Python dicts preserve insertion order and have unique keys; they are
    modelled as association lists in insertion order.
  * `if subfield:` / `if field[1]:` / `if product:` are truthiness tests
    (`pyTruthy` below); `None` and the empty string are falsy.
  * floats are not modelled (no claim concerns them); the numeric branch is
    represented by `vInt` and — because of the subclassing rule — `vBool`.
-/

namespace POMaster

/-- Python/JSON values as returned by the Odoo JSON-RPC endpoint and
consumed by the scripts: `None`, booleans, integers, strings, lists and
(insertion-ordered) dicts with string keys. -/
inductive Value : Type where
  | vNull : Value
  | vBool (b : Bool) : Value
  | vInt (n : Int) : Value
  | vStr (s : String) : Value
  | vList (xs : List Value) : Value
  | vDict (ps : List (String × Value)) : Value
deriving Inhabited

open Value

/-- A Python dict, modelled as an association list in insertion order
(keys unique, as in a real dict). -/
abbrev Dict := List (String × Value)

/-- First binding of key `k`, if any (Python `k in d` / `d[k]`). -/
def dictFind (ps : Dict) (k : String) : Option Value :=
  (ps.find? (fun p => p.1 == k)).map Prod.snd

/-- Python `d.get(k)`: the value bound to `k`, or `None` when absent. -/
def dictGet (ps : Dict) (k : String) : Value :=
  (dictFind ps k).getD vNull

/-- Python `d.get(k, dflt)`. -/
def dictGetD (ps : Dict) (k : String) (dflt : Value) : Value :=
  (dictFind ps k).getD dflt

/-- Python `k in d`. -/
def dictHas (ps : Dict) (k : String) : Bool :=
  (dictFind ps k).isSome

/-- Python truthiness of a value: `None`, `False`, `0`, `""`, `[]` and
`{}` are falsy, everything else is truthy. -/
def pyTruthy : Value → Bool
  | vNull => false
  | vBool b => b
  | vInt n => n != 0
  | vStr s => s != ""
  | vList xs => !xs.isEmpty
  | vDict ps => !ps.isEmpty

/-- Python `repr` of a value (string escaping inside quotes is not
modelled; no claim depends on it).  The quote around strings is the
ASCII apostrophe, written as an escape. -/
def pyRepr : Value → String
  | vNull => "None"
  | vBool true => "True"
  | vBool false => "False"
  | vInt n => toString n
  | vStr s => "\x27" ++ s ++ "\x27"
  | vList xs =>
      "[" ++ String.intercalate ", " (xs.attach.map (fun x => pyRepr x.1)) ++ "]"
  | vDict ps =>
      "\x7b" ++
        String.intercalate ", "
          (ps.attach.map (fun p => "\x27" ++ p.1.1 ++ "\x27: " ++ pyRepr p.1.2)) ++
      "\x7d"
decreasing_by
  · have := List.sizeOf_lt_of_mem x.2
    simp [Value.vList.sizeOf_spec]
    omega
  · have h1 := List.sizeOf_lt_of_mem p.2
    have h2 : sizeOf p.1.2 < sizeOf p.1 := by
      cases hp : p.1 with
      | mk a b => simp [hp, Prod.mk.sizeOf_spec]
    simp [Value.vDict.sizeOf_spec]
    omega

/-- Python `str` of a value: identity on strings, `repr` on containers,
the usual forms on scalars (`str(False) = "False"`, `str(None) = "None"`,
decimal form on integers). -/
def pyStr : Value → String
  | vStr s => s
  | v => pyRepr v

/-- Truthiness of the `subfield` argument of `safe_str` (`if subfield:`):
`None` and `""` are falsy. -/
def subTruthy : Option String → Bool
  | none => false
  | some s => s != ""

/-- The field normalizer `safe_str(field, subfield=None)` of both scripts
(lines 46-59).  Branches, in source order:

  * dict: if `subfield` is truthy, recurse on `field.get(subfield)` (with
    no subfield); else if `"display_name" in field`, return
    `str(field.get("display_name", ""))`; else return
    `" ".join(map(str, field.values()))`;
  * list of length 2: `str(field[1]) if field[1] else ""`;
  * `isinstance(field, (int, float))`: `str(field)` — in Python this test
    is also true for booleans (`bool` subclasses `int`), so `False` maps
    to `"False"` here and never reaches the next branch;
  * `field in (False, None)`: of the values that can still reach this
    line only `None` compares equal to `False` or `None`, so: `None ↦ ""`;
  * otherwise `str(field)` — strings map to themselves, lists of length
    other than two to their `repr`. -/
def safe_str (field : Value) (subfield : Option String) : String :=
  match field with
  | vDict ps =>
      if h : subTruthy subfield then
        safe_str (dictGet ps (subfield.getD "")) none
      else if dictHas ps "display_name" then
        pyStr (dictGetD ps "display_name" (vStr ""))
      else
        String.intercalate " " (ps.map (fun p => pyStr p.2))
  | vList xs =>
      if xs.length = 2 then
        if pyTruthy (xs.getD 1 vNull) then pyStr (xs.getD 1 vNull) else ""
      else pyStr (vList xs)
  | vInt n => pyStr (vInt n)
  | vBool b => pyStr (vBool b)
  | vNull => ""
  | vStr s => s
termination_by (if subTruthy subfield then 1 else 0)
decreasing_by
  show (0 : Nat) < if subTruthy subfield = true then 1 else 0
  simp [h]

/-! ### Paginated fetcher

`fetch_purchase_orders` (PO_data_fetch.py lines 97-128) and
`fetch_expense_sheets` (expns_master.py lines 96-127) share the same loop:

    offset, batch_size = 0, 2000
    all_records = []
    while True:
        ... POST web_search_read with this offset/limit ...
        records = result.get("records", [])
        all_records.extend(records)
        if len(records) < batch_size: break
        offset += batch_size
    return all_records

The HTTP transport is abstracted as `server : Nat → List R`, mapping the
request's offset to the page of records the server returns (each request
differs only in its offset, as in the source).  `fetchPages` returns both
the list of offsets actually requested, in request order, and the
accumulated records.  The Python loop does not terminate if the server
returns a full page forever, so the model takes a fuel bound and returns
`none` when the fuel is exhausted before a short page is seen. -/

/-- The pagination loop: request the page at `offset`; stop after the
first page whose length is strictly below `batchSize`, else advance the
offset by `batchSize` and continue.  Returns `(offsets requested, all
records in arrival order)`. -/
def fetchPages {R : Type} (server : Nat → List R) (batchSize : Nat) :
    Nat → Nat → Option (List Nat × List R)
  | 0, _ => none
  | fuel + 1, offset =>
      let records := server offset
      if records.length < batchSize then some ([offset], records)
      else
        match fetchPages server batchSize fuel (offset + batchSize) with
        | none => none
        | some (offs, recs) => some (offset :: offs, records ++ recs)

/-- A server backed by a fixed total record list: the page at `offset` is
the next `batchSize` records starting there (how Odoo's offset/limit
window behaves). -/
def sliceServer {R : Type} (all : List R) (batchSize : Nat) (offset : Nat) : List R :=
  (all.drop offset).take batchSize

/-- `fetch_purchase_orders` (PO_data_fetch.py lines 97-128): the loop with
`batch_size = 2000` starting at offset 0. -/
def fetch_purchase_orders {R : Type} (server : Nat → List R) (fuel : Nat) :
    Option (List Nat × List R) :=
  fetchPages server 2000 fuel 0

/-- `fetch_expense_sheets` (expns_master.py lines 96-127): the same loop
with `batch_size = 2000` starting at offset 0. -/
def fetch_expense_sheets {R : Type} (server : Nat → List R) (fuel : Nat) :
    Option (List Nat × List R) :=
  fetchPages server 2000 fuel 0

/-! ### Row flatteners -/

/-- A flat output row: output column name paired with the cell value
(a normalized string for most columns, a raw passthrough value for the
numeric columns). -/
abbrev Row := List (String × Value)

/-- Python `for line in v`: the model only iterates lists; iterating any
other value (a string, a dict, or `False`/`None`, which raise `TypeError`)
is out of the flatteners' intended domain and is modelled as `none`. -/
def iterList : Value → Option (List Value)
  | vList xs => some xs
  | _ => none

/-- `line.get(...)` is only defined when `line` is a dict; any other value
raises `AttributeError`, modelled as `none`. -/
def asDict : Value → Option Dict
  | vDict ps => some ps
  | _ => none

/-- Apply a fallible step to each element in order, failing (as the
Python loop would raise) on the first failure. -/
def mapMOpt {α β : Type} (f : α → Option β) : List α → Option (List β)
  | [] => some []
  | a :: t => do
      let b ← f a
      let bs ← mapMOpt f t
      pure (b :: bs)

/-- One flat row of `flatten_purchase_orders` (PO_data_fetch.py lines
135-154): every column is `safe_str` of a child field except
"Total Quantity" and "Subtotal", which are `line.get(key, 0)` raw
passthroughs. -/
def poRow (line : Dict) : Row :=
  [("Company", vStr (safe_str (dictGet line "company_id") none)),
   ("Created on", vStr (safe_str (dictGet line "create_date") none)),
   ("Consumption Date", vStr (safe_str (dictGet line "exp_consum_date") none)),
   ("PO Approved Date", vStr (safe_str (dictGet line "date_approve") none)),
   ("Order Reference", vStr (safe_str (dictGet line "order_id") none)),
   ("PO Type", vStr (safe_str (dictGet line "po_type") none)),
   ("Item Type", vStr (safe_str (dictGet line "itemtypes") none)),
   ("Currency", vStr (safe_str (dictGet line "currency_id") none)),
   ("Item Category", vStr (safe_str (dictGet line "item_category") none)),
   ("Description", vStr (safe_str (dictGet line "name") none)),
   ("Partner", vStr (safe_str (dictGet line "partner_id") none)),
   ("Inco Term", vStr (safe_str (dictGet line "incoterm_id") none)),
   ("Payment Term", vStr (safe_str (dictGet line "payment_term_id") none)),
   ("Shipment Mode", vStr (safe_str (dictGet line "shipment_mode") none)),
   ("Total Quantity", dictGetD line "product_uom_qty" (vInt 0)),
   ("Subtotal", dictGetD line "price_subtotal" (vInt 0)),
   ("Status", vStr (safe_str (dictGet line "state") none))]

/-- The child dicts of one purchase order: `rec.get("order_line", [])`
iterated, each element used as a dict. -/
def lineDictsPO (rec : Dict) : Option (List Dict) :=
  (iterList (dictGetD rec "order_line" (vList []))).bind (mapMOpt asDict)

/-- `flatten_purchase_orders` (PO_data_fetch.py lines 131-155): one row
per order line, parents in input order, lines in list order. -/
def flatten_purchase_orders : List Dict → Option (List Row)
  | [] => some []
  | rec :: rest => do
      let lines ← lineDictsPO rec
      let rem ← flatten_purchase_orders rest
      pure (lines.map poRow ++ rem)

/-- The "Category" cell of `flatten_expense_sheets` (expns_master.py line
134-135):

    product = line.get("product_id", {})
    category = f"[{safe_str(product.get('default_code', ''))}] " \
               f"{safe_str(product.get('name', ''))}" if product else ""

If `product` is truthy but not a dict, `product.get` raises (`none`). -/
def categoryOf (line : Dict) : Option String :=
  let product := dictGetD line "product_id" (vDict [])
  if pyTruthy product then
    match product with
    | vDict ps =>
        some ("[" ++ safe_str (dictGetD ps "default_code" (vStr "")) none ++ "] "
              ++ safe_str (dictGetD ps "name" (vStr "")) none)
    | _ => none
  else
    some ""

/-- One flat row of `flatten_expense_sheets` (expns_master.py lines
136-149).  "Number" comes from the parent record's "code" field; "Total"
and "Total In Currency" are raw `line.get(key, 0)` passthroughs. -/
def expnRow (rec : Dict) (line : Dict) : Option Row := do
  let cat ← categoryOf line
  pure [("Number", vStr (safe_str (dictGet rec "code") none)),
        ("Expense Date", vStr (safe_str (dictGet line "date") none)),
        ("Creted Date", vStr (safe_str (dictGet line "create_date") none)),
        ("Category", vStr cat),
        ("Super Category", vStr (safe_str (dictGet line "super_category_id") none)),
        ("Description", vStr (safe_str (dictGet line "name") none)),
        ("Department", vStr (safe_str (dictGet line "department_id") none)),
        ("ID", vStr (safe_str (dictGet line "id") none)),
        ("Predicted Category", vStr (safe_str (dictGet line "predicted_category") none)),
        ("Status", vStr (safe_str (dictGet line "state") none)),
        ("Total", dictGetD line "total_amount" (vInt 0)),
        ("Total In Currency", dictGetD line "total_amount_currency" (vInt 0))]

/-- The child dicts of one expense sheet: `rec.get("expense_line_ids", [])`
iterated, each element used as a dict. -/
def lineDictsE (rec : Dict) : Option (List Dict) :=
  (iterList (dictGetD rec "expense_line_ids" (vList []))).bind (mapMOpt asDict)

/-- `flatten_expense_sheets` (expns_master.py lines 130-150): one row per
expense line, parents in input order, lines in list order. -/
def flatten_expense_sheets : List Dict → Option (List Row)
  | [] => some []
  | rec :: rest => do
      let lines ← lineDictsE rec
      let rows ← mapMOpt (expnRow rec) lines
      let rem ← flatten_expense_sheets rest
      pure (rows ++ rem)

/-- The purchase-order column schema, in the order the rows are built
(17 columns). -/
def poColumns : List String :=
  ["Company", "Created on", "Consumption Date", "PO Approved Date",
   "Order Reference", "PO Type", "Item Type", "Currency", "Item Category",
   "Description", "Partner", "Inco Term", "Payment Term", "Shipment Mode",
   "Total Quantity", "Subtotal", "Status"]

/-- The expense-sheet column schema, in the order the rows are built
(12 columns). -/
def expColumns : List String :=
  ["Number", "Expense Date", "Creted Date", "Category", "Super Category",
   "Description", "Department", "ID", "Predicted Category", "Status",
   "Total", "Total In Currency"]

/-! ### Sheet publisher

`paste_to_gsheet` exists in both files, differing only in the cleared
column range and the timestamp cell:

  * PO_data_fetch.py lines 158-179: opens the worksheet; if `df.empty`,
    prints a skip message and returns; else `batch_clear(["A:Q"])`
    (columns 0-16), `set_with_dataframe` at A1 (header row of column
    names, then one row per data row), then `update("R1", ...)` with a
    "Last Updated: <ts>" string (row 0, column 17);
  * expns_master.py lines 153-174: same with `batch_clear(["A:L"])`
    (columns 0-11) and the timestamp in M1 (row 0, column 12).

The publisher is modelled as the list of mutation operations it issues
against the worksheet (opening the worksheet is a read, not a mutation),
plus a flag recording whether the empty-table skip path was taken.
`applyOps` gives the operations' effect on a sheet state so that the
idempotence claim can be stated about visible destination content. -/

/-- A mutation issued against the destination worksheet. -/
inductive SheetOp : Type where
  | clearCols (lo hi : Nat) : SheetOp
  | writeTable (table : List (List String)) : SheetOp
  | writeCell (r c : Nat) (s : String) : SheetOp
deriving Repr

/-- The visible content of the destination tab: cell text by (row,
column), both 0-based. -/
abbrev Sheet : Type := Nat → Nat → String

/-- The cell of a top-left-anchored table covering position `(r, c)`,
if the table extends there. -/
def cellOf (table : List (List String)) (r c : Nat) : Option String :=
  (table.get? r).bind (fun row => row.get? c)

/-- Effect of one mutation on the sheet: `clearCols` blanks every cell in
the column band, `writeTable` overwrites exactly the cells the table
covers, `writeCell` overwrites one cell. -/
def applyOp (s : Sheet) : SheetOp → Sheet
  | SheetOp.clearCols lo hi => fun r c => if lo ≤ c ∧ c ≤ hi then "" else s r c
  | SheetOp.writeTable table => fun r c => (cellOf table r c).getD (s r c)
  | SheetOp.writeCell r0 c0 v => fun r c => if r = r0 ∧ c = c0 then v else s r c

/-- Effect of a sequence of mutations, in order. -/
def applyOps (s : Sheet) (ops : List SheetOp) : Sheet :=
  ops.foldl applyOp s

/-- The dataframe's columns: union of the rows' keys in first-occurrence
order (how `pd.DataFrame(list_of_dicts)` assembles its columns; the rows
built by the flatteners all share one schema, cf. the column-set
invariant below). -/
def dfColumns (df : List Row) : List String :=
  df.foldl (fun acc row => acc ++ ((row.map Prod.fst).filter (fun k => !acc.contains k))) []

/-- The cell grid `set_with_dataframe` writes at A1: the header row of
column names followed by one row of rendered values per data row (a
missing key renders as the empty cell). -/
def dfTable (df : List Row) : List (List String) :=
  let cols := dfColumns df
  cols :: df.map (fun row => cols.map (fun k => ((dictFind row k).map pyStr).getD ""))

/-- `paste_to_gsheet` of PO_data_fetch.py (lines 158-179): skip on an
empty dataframe (no mutation, skip flag true); otherwise clear columns
A-Q (0-16), write the table at A1, and stamp R1 (row 0, column 17). -/
def paste_to_gsheet_po (df : List Row) (ts : String) : List SheetOp × Bool :=
  if df.isEmpty then ([], true)
  else ([SheetOp.clearCols 0 16,
         SheetOp.writeTable (dfTable df),
         SheetOp.writeCell 0 17 ("Last Updated: " ++ ts)], false)

/-- `paste_to_gsheet` of expns_master.py (lines 153-174): same shape with
columns A-L (0-11) cleared and the timestamp in M1 (row 0, column 12). -/
def paste_to_gsheet_exp (df : List Row) (ts : String) : List SheetOp × Bool :=
  if df.isEmpty then ([], true)
  else ([SheetOp.clearCols 0 11,
         SheetOp.writeTable (dfTable df),
         SheetOp.writeCell 0 12 ("Last Updated: " ++ ts)], false)

/-! ## Theorems -/

/-- Claim C1 (code evaluated at the failing input).  The spec says the
absent sentinel `False` and `None` both normalize to `""`.  `None` does,
but `safe_str(False)` returns `"False"`: Python's `bool` subclasses
`int`, so `isinstance(False, (int, float))` is true and the numeric
branch fires before the `field in (False, None)` test, which is
therefore dead code for `False`. -/
theorem safe_str_false_sentinel_eval :
    safe_str (vBool false) none = "False" ∧ safe_str vNull none = "" := by
  constructor
  · simp [safe_str, pyStr, pyRepr]
  · simp [safe_str]

/-- Claim C3 (counterexample).  The claim says the display-label case
takes precedence even when a sub-field name is requested; in the code the
`subfield` test comes first, so for `{display_name: "D", s: "Y"}` with
sub-field `"s"` the normalizer returns `"Y"`, not `"D"` as claimed. -/
theorem safe_str_display_precedence_cex :
    safe_str (vDict [("display_name", vStr "D"), ("s", vStr "Y")]) (some "s") = "Y"
      ∧ ("Y" : String) ≠ "D" := by
  constructor
  · simp [safe_str, subTruthy, dictGet, dictFind, pyStr]
  · decide

/-- Claim C3 (amended): for a nested mapping, a truthy requested
sub-field name takes precedence — the normalizer recurses on that
sub-field's value (with no sub-field); otherwise, when the mapping
contains `display_name`, it returns that value's string form; otherwise
it returns the string forms of all the mapping's values, in mapping
order, joined by single spaces.  In particular `{display_name: X}` with
no sub-field gives `str(X)` and `{a: 1, b: 2}` gives `"1 2"`. -/
theorem safe_str_dict_spec :
    (∀ (ps : Dict) (s : String), s ≠ "" →
        safe_str (vDict ps) (some s) = safe_str (dictGet ps s) none) ∧
    (∀ ps : Dict, dictHas ps "display_name" = true →
        safe_str (vDict ps) none = pyStr (dictGetD ps "display_name" (vStr ""))) ∧
    (∀ ps : Dict, dictHas ps "display_name" = false →
        safe_str (vDict ps) none = String.intercalate " " (ps.map (fun p => pyStr p.2))) ∧
    (∀ x : Value, safe_str (vDict [("display_name", x)]) none = pyStr x) ∧
    safe_str (vDict [("a", vInt 1), ("b", vInt 2)]) none = "1 2" := by
  refine ⟨?_, ?_, ?_, ?_, ?_⟩
  · intro ps s hs
    rw [safe_str]
    simp [subTruthy, hs]
  · intro ps h
    rw [safe_str]
    simp [subTruthy, h]
  · intro ps h
    rw [safe_str]
    simp [subTruthy, h]
  · intro x
    rw [safe_str]
    simp [subTruthy, dictHas, dictFind, dictGetD]
  · rw [safe_str]
    simp [subTruthy, dictHas, dictFind, pyStr, pyRepr]
    rfl

/-- Witness for the amended C3 at concrete inputs. -/
theorem safe_str_dict_spec_witness :
    safe_str (vDict [("k", vStr "v")]) (some "k")
      = safe_str (dictGet [("k", vStr "v")] "k") none :=
  safe_str_dict_spec.1 [("k", vStr "v")] "k" (by decide)

/-- Claim C5: the normalizer is total — for every value of the embedding
(nested mapping, list, number, boolean, null or string) and every
sub-field argument it returns a string.  Totality holds by construction:
`safe_str` is a total Lean function (its recursion is proved
terminating), so every application denotes a string. -/
theorem safe_str_total :
    ∀ (v : Value) (sub : Option String), ∃ s : String, safe_str v sub = s :=
  fun _ _ => ⟨_, rfl⟩

/-- Witness for C5 at a concrete input. -/
theorem safe_str_total_witness : ∃ s : String, safe_str vNull none = s :=
  safe_str_total vNull none

/-- Claim C6: on a two-element pair `(id, label)` the normalizer returns
the label's string form when the label is truthy and `""` when it is
falsy; in particular `(7, "Acme") ↦ "Acme"` and `(7, "") ↦ ""`. -/
theorem safe_str_pair_spec :
    (∀ a b : Value, safe_str (vList [a, b]) none = if pyTruthy b then pyStr b else "") ∧
    safe_str (vList [vInt 7, vStr "Acme"]) none = "Acme" ∧
    safe_str (vList [vInt 7, vStr ""]) none = "" := by
  refine ⟨?_, ?_, ?_⟩
  · intro a b
    rw [safe_str]
    simp
  · rw [safe_str]
    simp [pyTruthy, pyStr]
  · rw [safe_str]
    simp [pyTruthy]

/-- Witness for C6 at a concrete input. -/
theorem safe_str_pair_spec_witness :
    safe_str (vList [vInt 7, vStr "Acme"]) none
      = if pyTruthy (vStr "Acme") then pyStr (vStr "Acme") else "" :=
  safe_str_pair_spec.1 (vInt 7) (vStr "Acme")

/-- Against a server that slices a fixed record list, the pagination loop
(with enough fuel) requests exactly the offsets `0·b, 1·b, …,
(⌊(n - off)/b⌋)·b` past its start and returns every record from its start
offset on, in order. -/
theorem fetchPages_slice {R : Type} (batch : Nat) (hb : 0 < batch) (L : List R) :
    ∀ fuel offset : Nat, L.length - offset < batch * fuel →
      fetchPages (sliceServer L batch) batch fuel offset
        = some ((List.range ((L.length - offset) / batch + 1)).map
                  (fun i => offset + batch * i),
                L.drop offset) := by
  intro fuel
  induction fuel with
  | zero => intro off h; simp at h
  | succ n ih =>
      intro off h
      have hlen : (sliceServer L batch off).length = min batch (L.length - off) := by
        simp [sliceServer]
      by_cases hshort : L.length - off < batch
      · have h1 : (sliceServer L batch off).length < batch := by omega
        have hdiv0 : (L.length - off) / batch = 0 := Nat.div_eq_of_lt hshort
        have hall : sliceServer L batch off = L.drop off := by
          rw [sliceServer]
          exact List.take_of_length_le (by simp; omega)
        simp only [fetchPages, hall, hdiv0]
        rw [if_pos (show (List.drop off L).length < batch by simp; omega)]
        simp [List.range_succ]
      · have hge : batch ≤ L.length - off := Nat.le_of_not_lt hshort
        have h1 : ¬ (sliceServer L batch off).length < batch := by omega
        have hrec : L.length - (off + batch) < batch * n := by
          have hms : batch * (n + 1) = batch * n + batch := Nat.mul_succ batch n
          omega
        have hdrop : sliceServer L batch off ++ L.drop (off + batch) = L.drop off := by
          rw [sliceServer, ← List.drop_drop, List.take_append_drop]
        have hdiv : (L.length - off) / batch
            = (L.length - (off + batch)) / batch + 1 := by
          rw [Nat.div_eq_sub_div hb hge]
          congr 2
          omega
        have hoffs :
            (List.range ((L.length - off) / batch + 1)).map (fun i => off + batch * i)
              = off :: (List.range ((L.length - (off + batch)) / batch + 1)).map
                  (fun i => (off + batch) + batch * i) := by
          rw [hdiv, List.range_succ_eq_map, List.map_cons, List.map_map]
          have hfun : ((fun i => off + batch * i) ∘ Nat.succ)
              = fun i => (off + batch) + batch * i := by
            funext i
            show off + batch * (i + 1) = (off + batch) + batch * i
            ring
          rw [hfun]
          simp
        simp only [fetchPages, if_neg h1, ih (off + batch) hrec, hoffs, hdrop]

/-- Claim C2: for a server that serves pages of a fixed total record list
with page size 2000 (every non-final page full, the final page short),
both fetchers request exactly the offsets 0, 2000, 4000, … — one request
per page, `⌊n/2000⌋ + 1` requests in all — stop after the first short
page, and return all records in server order.  In particular 4500 total
records take exactly 3 requests at offsets 0, 2000, 4000 and return all
4500 records, and 0 total records (a short first page) take exactly one
request. -/
theorem fetch_pagination_spec :
    (∀ {R : Type} (L : List R) (fuel : Nat), L.length < 2000 * fuel →
        fetch_purchase_orders (sliceServer L 2000) fuel
            = some ((List.range (L.length / 2000 + 1)).map (fun i => 2000 * i), L)
          ∧ fetch_expense_sheets (sliceServer L 2000) fuel
            = some ((List.range (L.length / 2000 + 1)).map (fun i => 2000 * i), L)) ∧
    (∀ L : List Nat, L.length = 4500 →
        fetch_purchase_orders (sliceServer L 2000) 3 = some ([0, 2000, 4000], L)) ∧
    (∀ L : List Nat, L.length = 0 →
        fetch_purchase_orders (sliceServer L 2000) 1 = some ([0], L)) := by
  have key : ∀ {R : Type} (L : List R) (fuel : Nat), L.length < 2000 * fuel →
      fetchPages (sliceServer L 2000) 2000 fuel 0
        = some ((List.range (L.length / 2000 + 1)).map (fun i => 2000 * i), L) := by
    intro R L fuel h
    have := fetchPages_slice 2000 (by omega) L fuel 0 (by omega)
    simpa using this
  refine ⟨?_, ?_, ?_⟩
  · intro R L fuel h
    exact ⟨key L fuel h, key L fuel h⟩
  · intro L hL
    have := key L 3 (by omega)
    rw [fetch_purchase_orders, this, hL]
    rfl
  · intro L hL
    have := key L 1 (by omega)
    rw [fetch_purchase_orders, this, hL]
    rfl

/-- Witness for C2: the 4500-record instance at a concrete list. -/
theorem fetch_pagination_spec_witness :
    (List.range 4500).length = 4500 ∧
      fetch_purchase_orders (sliceServer (List.range 4500) 2000) 3
        = some ([0, 2000, 4000], List.range 4500) := by
  have h : (List.range 4500).length = 4500 := by simp
  exact ⟨h, fetch_pagination_spec.2.1 (List.range 4500) h⟩

/-- When every step succeeds, `mapMOpt` is the plain element-wise map. -/
theorem mapMOpt_eq_map {α β : Type} (f : α → Option β) (d : β) :
    ∀ l : List α, (∀ x ∈ l, (f x).isSome) →
      mapMOpt f l = some (l.map (fun x => (f x).getD d)) := by
  intro l
  induction l with
  | nil => intro _; rfl
  | cons a t ih =>
      intro h
      obtain ⟨b, hb⟩ := Option.isSome_iff_exists.mp (h a (by simp))
      simp [mapMOpt, hb, ih (fun x hx => h x (by simp [hx]))]

/-- Every element `mapMOpt` produces comes from some input element. -/
theorem mapMOpt_mem {α β : Type} (f : α → Option β) :
    ∀ (l : List α) (bs : List β), mapMOpt f l = some bs →
      ∀ b ∈ bs, ∃ a ∈ l, f a = some b := by
  intro l
  induction l with
  | nil =>
      intro bs h b hb
      simp [mapMOpt] at h
      subst h
      simp at hb
  | cons a t ih =>
      intro bs h b hb
      cases hfa : f a with
      | none => simp [mapMOpt, hfa] at h
      | some b0 =>
          cases hmt : mapMOpt f t with
          | none => simp [mapMOpt, hfa, hmt] at h
          | some bs0 =>
              simp [mapMOpt, hfa, hmt] at h
              subst h
              rcases List.mem_cons.mp hb with hb0 | hb0
              · exact ⟨a, by simp, by rw [hfa, hb0]⟩
              · obtain ⟨x, hx, hfx⟩ := ih bs0 hmt b hb0
                exact ⟨x, by simp [hx], hfx⟩

/-- The purchase-order flattener, when every parent's child field is a
list of dicts, yields exactly one `poRow` per child, parents in input
order and children in list order. -/
theorem flatten_po_eq : ∀ records : List Dict,
    (∀ rec ∈ records, (lineDictsPO rec).isSome) →
    flatten_purchase_orders records
      = some (records.flatMap (fun rec => ((lineDictsPO rec).getD []).map poRow)) := by
  intro records
  induction records with
  | nil => intro _; rfl
  | cons rec rest ih =>
      intro h
      obtain ⟨lines, hl⟩ := Option.isSome_iff_exists.mp (h rec (by simp))
      have ih2 := ih (fun r hr => h r (by simp [hr]))
      simp [flatten_purchase_orders, hl, ih2]

/-- The expense-sheet flattener, when every parent's child field is a
list of dicts and every line's row extraction succeeds, yields exactly
one row per child in (parent, child) order. -/
theorem flatten_exp_eq : ∀ records : List Dict,
    (∀ rec ∈ records, (lineDictsE rec).isSome) →
    (∀ rec ∈ records, ∀ line ∈ (lineDictsE rec).getD [], (expnRow rec line).isSome) →
    flatten_expense_sheets records
      = some (records.flatMap (fun rec =>
          ((lineDictsE rec).getD []).map (fun line => (expnRow rec line).getD []))) := by
  intro records
  induction records with
  | nil => intro _ _; rfl
  | cons rec rest ih =>
      intro h1 h2
      obtain ⟨lines, hl⟩ := Option.isSome_iff_exists.mp (h1 rec (by simp))
      have h2r := h2 rec (by simp)
      rw [hl] at h2r
      simp only [Option.getD_some] at h2r
      have hrows := mapMOpt_eq_map (expnRow rec) [] lines h2r
      have ih2 := ih (fun r hr => h1 r (by simp [hr]))
        (fun r hr => h2 r (by simp [hr]))
      simp [flatten_expense_sheets, hl, hrows, ih2]

/-- Claim C4: each flattener produces exactly one flat row per child
record, iterating parents in input order and children in list order, so
the output is the concatenation in (parent order, child order); a parent
whose child-list field is absent, or is the empty list, contributes zero
rows; and a concrete 2-parent input whose first parent has two children
and whose second has none yields exactly the first parent's two rows in
child order. -/
theorem flatten_one_row_per_child :
    (∀ records : List Dict, (∀ rec ∈ records, (lineDictsPO rec).isSome) →
        flatten_purchase_orders records
          = some (records.flatMap (fun rec => ((lineDictsPO rec).getD []).map poRow))) ∧
    (∀ records : List Dict,
        (∀ rec ∈ records, (lineDictsE rec).isSome) →
        (∀ rec ∈ records, ∀ line ∈ (lineDictsE rec).getD [], (expnRow rec line).isSome) →
        flatten_expense_sheets records
          = some (records.flatMap (fun rec =>
              ((lineDictsE rec).getD []).map (fun line => (expnRow rec line).getD [])))) ∧
    (∀ rec : Dict, dictFind rec "order_line" = none → lineDictsPO rec = some []) ∧
    (∀ rec : Dict, dictGetD rec "order_line" (vList []) = vList [] →
        lineDictsPO rec = some []) ∧
    (∀ c1 c2 : Dict,
        flatten_purchase_orders [[("order_line", vList [vDict c1, vDict c2])], []]
          = some [poRow c1, poRow c2]) := by
  refine ⟨flatten_po_eq, flatten_exp_eq, ?_, ?_, ?_⟩
  · intro rec h
    simp [lineDictsPO, dictGetD, h, iterList, mapMOpt]
  · intro rec h
    simp [lineDictsPO, h, iterList, mapMOpt]
  · intro c1 c2
    simp [flatten_purchase_orders, lineDictsPO, dictGetD, dictFind, iterList,
          mapMOpt, asDict]

/-- Witness for C4: the purchase-order part at a concrete one-parent,
one-child input, with the well-shapedness hypothesis discharged. -/
theorem flatten_one_row_per_child_witness :
    flatten_purchase_orders [[("order_line", vList [vDict []])]]
      = some ([[("order_line", vList [vDict []])]].flatMap
          (fun rec => ((lineDictsPO rec).getD []).map poRow)) :=
  flatten_one_row_per_child.1 _ (by
    intro rec hrec
    simp at hrec
    subst hrec
    simp [lineDictsPO, dictGetD, dictFind, iterList, mapMOpt, asDict])

/-- The purchase-order row always carries exactly the 17 schema columns,
in schema order. -/
theorem poRow_fst (line : Dict) : (poRow line).map Prod.fst = poColumns := rfl

/-- The expense row, whenever it is produced, carries exactly the 12
schema columns, in schema order. -/
theorem expnRow_fst (rec line : Dict) (row : Row) (h : expnRow rec line = some row) :
    row.map Prod.fst = expColumns := by
  cases hc : categoryOf line with
  | none => simp [expnRow, hc] at h
  | some cat =>
      simp [expnRow, hc] at h
      subst h
      rfl

/-- Every row the purchase-order flattener outputs has the fixed
17-column schema. -/
theorem flatten_po_columns : ∀ (records : List Dict) (rows : List Row),
    flatten_purchase_orders records = some rows →
    ∀ row ∈ rows, row.map Prod.fst = poColumns := by
  intro records
  induction records with
  | nil =>
      intro rows h row hr
      simp [flatten_purchase_orders] at h
      subst h
      simp at hr
  | cons rec rest ih =>
      intro rows h row hr
      cases h1 : lineDictsPO rec with
      | none => simp [flatten_purchase_orders, h1] at h
      | some lines =>
          cases h2 : flatten_purchase_orders rest with
          | none => simp [flatten_purchase_orders, h1, h2] at h
          | some rem =>
              simp [flatten_purchase_orders, h1, h2] at h
              subst h
              rcases List.mem_append.mp hr with hm | hm
              · obtain ⟨l, _, hl⟩ := List.mem_map.mp hm
                rw [← hl]
                rfl
              · exact ih rem h2 row hm

/-- Every row the expense-sheet flattener outputs has the fixed
12-column schema. -/
theorem flatten_exp_columns : ∀ (records : List Dict) (rows : List Row),
    flatten_expense_sheets records = some rows →
    ∀ row ∈ rows, row.map Prod.fst = expColumns := by
  intro records
  induction records with
  | nil =>
      intro rows h row hr
      simp [flatten_expense_sheets] at h
      subst h
      simp at hr
  | cons rec rest ih =>
      intro rows h row hr
      cases h1 : lineDictsE rec with
      | none => simp [flatten_expense_sheets, h1] at h
      | some lines =>
          cases hm1 : mapMOpt (expnRow rec) lines with
          | none => simp [flatten_expense_sheets, h1, hm1] at h
          | some rows1 =>
              cases h2 : flatten_expense_sheets rest with
              | none => simp [flatten_expense_sheets, h1, hm1, h2] at h
              | some rem =>
                  simp [flatten_expense_sheets, h1, hm1, h2] at h
                  subst h
                  rcases List.mem_append.mp hr with hm | hm
                  · obtain ⟨line, _, hline⟩ := mapMOpt_mem (expnRow rec) lines rows1 hm1 row hm
                    exact expnRow_fst rec line row hline
                  · exact ih rem h2 row hm

/-- Claim C7: every flat row either flattener outputs carries exactly
the dataset's fixed column schema — 17 named columns for purchase
orders, 12 for expense sheets — regardless of which source fields were
present in the child record. -/
theorem flat_row_columns_fixed :
    (∀ (records : List Dict) (rows : List Row),
        flatten_purchase_orders records = some rows →
        ∀ row ∈ rows, row.map Prod.fst = poColumns) ∧
    (∀ (records : List Dict) (rows : List Row),
        flatten_expense_sheets records = some rows →
        ∀ row ∈ rows, row.map Prod.fst = expColumns) ∧
    poColumns.length = 17 ∧ expColumns.length = 12 :=
  ⟨flatten_po_columns, flatten_exp_columns, rfl, rfl⟩

/-- Witness for C7 at a concrete input: a one-parent, one-child input
whose child dict is empty still yields a full-schema row. -/
theorem flat_row_columns_fixed_witness :
    (poRow []).map Prod.fst = poColumns :=
  flat_row_columns_fixed.1 [[("order_line", vList [vDict []])]] [poRow []]
    (by simp [flatten_purchase_orders, lineDictsPO, dictGetD, dictFind, iterList,
              mapMOpt, asDict])
    (poRow []) (by simp)

/-- Claim C8: on an empty table both publishers issue no mutation against
the destination — no clear, no write, no timestamp — and return normally
with the skip flag set instead of an error. -/
theorem paste_empty_skips :
    ∀ ts : String,
      paste_to_gsheet_po [] ts = ([], true) ∧ paste_to_gsheet_exp [] ts = ([], true) := by
  intro ts
  exact ⟨rfl, rfl⟩

/-- Witness for C8 at a concrete timestamp. -/
theorem paste_empty_skips_witness :
    paste_to_gsheet_po [] "2024-01-01 00:00:00" = ([], true)
      ∧ paste_to_gsheet_exp [] "2024-01-01 00:00:00" = ([], true) :=
  paste_empty_skips "2024-01-01 00:00:00"

/-- Publishing clear-table-stamp twice over the same table changes
nothing outside the timestamp cell compared to publishing once: the
second clear re-blanks the column band and the same table is rewritten
deterministically. -/
theorem publish_ops_idem (T : List (List String)) (hi tc : Nat) (u1 u2 : String)
    (s : Sheet) (r c : Nat) (h : ¬(r = 0 ∧ c = tc)) :
    applyOps (applyOps s [SheetOp.clearCols 0 hi, SheetOp.writeTable T,
        SheetOp.writeCell 0 tc u1])
      [SheetOp.clearCols 0 hi, SheetOp.writeTable T, SheetOp.writeCell 0 tc u2] r c
    = applyOps s [SheetOp.clearCols 0 hi, SheetOp.writeTable T,
        SheetOp.writeCell 0 tc u1] r c := by
  simp only [applyOps, List.foldl, applyOp]
  rw [if_neg h, if_neg h]
  cases hcv : cellOf T r c with
  | some v => simp [hcv]
  | none =>
      by_cases hc2 : 0 ≤ c ∧ c ≤ hi
      · simp [hcv, hc2]
      · simp [hcv, hc2, if_neg h]
        intro hle
        exact absurd ⟨Nat.zero_le c, hle⟩ hc2

/-- Claim C9: publishing the same non-empty table twice in succession
leaves every destination cell other than the timestamp cell (R1 for the
purchase-order publisher, M1 for the expense publisher) with exactly the
content a single publish produces — the second run's clear of the fixed
column band followed by the identical header-plus-rows write reproduces
the same visible state. -/
theorem paste_idempotent :
    ∀ (df : List Row) (ts1 ts2 : String) (s : Sheet) (r c : Nat), df ≠ [] →
      (¬(r = 0 ∧ c = 17) →
          applyOps (applyOps s (paste_to_gsheet_po df ts1).1)
              (paste_to_gsheet_po df ts2).1 r c
            = applyOps s (paste_to_gsheet_po df ts1).1 r c) ∧
      (¬(r = 0 ∧ c = 12) →
          applyOps (applyOps s (paste_to_gsheet_exp df ts1).1)
              (paste_to_gsheet_exp df ts2).1 r c
            = applyOps s (paste_to_gsheet_exp df ts1).1 r c) := by
  intro df ts1 ts2 s r c hdf
  have hF : df.isEmpty = false := by
    cases df with
    | nil => exact absurd rfl hdf
    | cons a t => rfl
  constructor
  · intro h
    simp only [paste_to_gsheet_po, hF, Bool.false_eq_true, if_false]
    exact publish_ops_idem (dfTable df) 16 17
      ("Last Updated: " ++ ts1) ("Last Updated: " ++ ts2) s r c h
  · intro h
    simp only [paste_to_gsheet_exp, hF, Bool.false_eq_true, if_false]
    exact publish_ops_idem (dfTable df) 11 12
      ("Last Updated: " ++ ts1) ("Last Updated: " ++ ts2) s r c h

/-- Witness for C9 at a concrete table, state and cell. -/
theorem paste_idempotent_witness :
    applyOps (applyOps (fun _ _ => "") (paste_to_gsheet_po [[("A", vNull)]] "t1").1)
        (paste_to_gsheet_po [[("A", vNull)]] "t2").1 1 0
      = applyOps (fun _ _ => "") (paste_to_gsheet_po [[("A", vNull)]] "t1").1 1 0 :=
  (paste_idempotent [[("A", vNull)]] "t1" "t2" (fun _ _ => "") 1 0
      (by simp)).1 (by decide)

/-- Claim C10: for the numeric passthrough columns ("Total Quantity" and
"Subtotal" for purchase orders, "Total" and "Total In Currency" for
expense sheets) the default 0 is used only when the source key is
entirely absent from the child record; a key present with the
boolean-false absent sentinel passes `False` through into the flat row
unchanged — not normalized and not replaced by 0. -/
theorem numeric_passthrough :
    (∀ line : Dict,
        (dictFind line "product_uom_qty" = none →
            dictFind (poRow line) "Total Quantity" = some (vInt 0)) ∧
        (dictFind line "product_uom_qty" = some (vBool false) →
            dictFind (poRow line) "Total Quantity" = some (vBool false)) ∧
        (dictFind line "price_subtotal" = none →
            dictFind (poRow line) "Subtotal" = some (vInt 0)) ∧
        (dictFind line "price_subtotal" = some (vBool false) →
            dictFind (poRow line) "Subtotal" = some (vBool false))) ∧
    (∀ (rec line : Dict) (row : Row), expnRow rec line = some row →
        (dictFind line "total_amount" = none →
            dictFind row "Total" = some (vInt 0)) ∧
        (dictFind line "total_amount" = some (vBool false) →
            dictFind row "Total" = some (vBool false)) ∧
        (dictFind line "total_amount_currency" = none →
            dictFind row "Total In Currency" = some (vInt 0)) ∧
        (dictFind line "total_amount_currency" = some (vBool false) →
            dictFind row "Total In Currency" = some (vBool false))) := by
  constructor
  · intro line
    refine ⟨?_, ?_, ?_, ?_⟩ <;>
      · intro h
        simp only [dictFind] at h
        simp [poRow, dictFind, dictGetD, h]
  · intro rec line row hrow
    cases hc : categoryOf line with
    | none => simp [expnRow, hc] at hrow
    | some cat =>
        simp [expnRow, hc] at hrow
        subst hrow
        refine ⟨?_, ?_, ?_, ?_⟩ <;>
          · intro h
            simp only [dictFind] at h
            simp [dictFind, dictGetD, h]

/-- Witness for C10: a child record with no numeric keys defaults its
"Total Quantity" cell to 0. -/
theorem numeric_passthrough_witness :
    dictFind (poRow []) "Total Quantity" = some (vInt 0) :=
  (numeric_passthrough.1 []).1 rfl

end POMaster
